import Mathlib

/-!
Shallow embedding of the iggy TCP client core (sdk/src/tcp and sdk/src/binary)
and proofs about its wire protocol, response handling, reconnection loop,
buffer pool and lifecycle state machine.
-/

namespace IggySdk

/-- Client lifecycle states (binary_client_state.rs, `ClientState`). -/
inductive ClientState where
  | Shutdown
  | Disconnected
  | Connecting
  | Connected
  | Authenticating
  | Authenticated
deriving DecidableEq, Repr

/-- `From<ClientState> for u8` (binary_client_state.rs): the `#[repr(u8)]`
discriminants Shutdown=0, Disconnected=1, Connecting=2, Connected=3,
Authenticating=4, Authenticated=5. -/
def ClientState.toU8 : ClientState → Nat
  | .Shutdown => 0
  | .Disconnected => 1
  | .Connecting => 2
  | .Connected => 3
  | .Authenticating => 4
  | .Authenticated => 5

/-- `From<u8> for ClientState` (binary_client_state.rs): the six known
discriminants decode to their state; every other byte falls back to
`Disconnected`. -/
def ClientState.fromU8 (value : Nat) : ClientState :=
  match value with
  | 0 => .Shutdown
  | 1 => .Disconnected
  | 2 => .Connecting
  | 3 => .Connected
  | 4 => .Authenticating
  | 5 => .Authenticated
  | _ => .Disconnected

/-- The error kinds of `IggyError` that the modelled code paths produce or
inspect (error taxonomy of the sdk). `FromCode s` stands for
`IggyError::from_code(s)` applied to a non-zero wire status; `TcpError`
stands for the generic transport error an I/O error converts into. -/
inductive IggyError where
  | ClientShutdown
  | NotConnected
  | Disconnected
  | EmptyResponse
  | Unauthenticated
  | StaleClient
  | CannotEstablishConnection
  | TcpError
  | FromCode (status : Nat)
deriving DecidableEq, Repr

/-- Little-endian byte encoding of the low 32 bits of `n`, as produced by
`put_u32_le` (bytes crate) in tcp_client_send_raw.rs. -/
def u32le (n : Nat) : List Nat :=
  [n % 256, n / 256 % 256, n / 65536 % 256, n / 16777216 % 256]

/-- `u32::from_le_bytes` over a 4-byte list (missing positions read as 0). -/
def leU32 (bs : List Nat) : Nat :=
  bs.getD 0 0 + 256 * bs.getD 1 0 + 65536 * bs.getD 2 0 + 16777216 * bs.getD 3 0

/-- Modelled from the spec: `REQUEST_INITIAL_BYTES_LENGTH` lives in
tcp_client_fields.rs which is not among the provided sources; the spec fixes
`total_length = 4 + payload_length` (it counts the command code), so the
constant is 4. -/
def REQUEST_INITIAL_BYTES_LENGTH : Nat := 4

/-- Modelled from the spec: `RESPONSE_INITIAL_BYTES_LENGTH` lives in
tcp_client_fields.rs which is not among the provided sources; the spec fixes
the response header at 8 bytes (`u32 status` then `u32 length`). -/
def RESPONSE_INITIAL_BYTES_LENGTH : Nat := 8

/-- The request frame bytes built in `TcpClient::send_raw`
(tcp_client_send_raw.rs lines 27-39): `put_u32_le(total_len)`,
`put_u32_le(code)`, then the payload, with
`total_len = payload.len() + REQUEST_INITIAL_BYTES_LENGTH`. -/
def requestFrame (code : Nat) (payload : List Nat) : List Nat :=
  u32le (payload.length + REQUEST_INITIAL_BYTES_LENGTH) ++ u32le code ++ payload

/-- One scripted behavior of the peer/stream for a single `read` call:
either it yields up to `n` of its remaining bytes, or the call fails with an
I/O error. A `read(&mut buf[..r])` with script entry `yield n` delivers
`min r n` bytes (capped by the data remaining), matching the contract of
`AsyncRead`: never more than the supplied slice length. -/
inductive ReadStep where
  | yield (n : Nat)
  | ioErr
deriving DecidableEq, Repr

/-- `TcpClient::read_chunked_response` (tcp_client_handle_response.rs lines
136-210), with the stream modelled by `steps` (per-call delivery sizes) and
`data` (the bytes the peer has to offer). `remaining` is the loop variable of
the same name; `acc` holds the bytes landed in the preallocated buffer so far
(so `bytes_read = acc.length`). On an I/O error after partial data the code
returns the truncated buffer as a success; with no data it returns the error.
A `yield 0` or exhausted data is the `Ok(0)` EOF break; a short chunk breaks
with the bytes so far. -/
def readChunkedAux (chunkSize : Nat) :
    List ReadStep → List Nat → Nat → List Nat → Except IggyError (List Nat)
  | _, _, 0, acc => .ok acc
  | [], _, _, acc =>
      if acc.length > 0 then .ok acc else .error .TcpError
  | .ioErr :: _, _, _, acc =>
      if acc.length > 0 then .ok acc else .error .TcpError
  | .yield k :: rest, data, remaining, acc =>
      let toRead := min remaining chunkSize
      let chunk := data.take (min toRead k)
      let n := chunk.length
      if n = 0 then .ok acc
      else if n < toRead then .ok (acc ++ chunk)
      else readChunkedAux chunkSize rest (data.drop n) (remaining - n) (acc ++ chunk)

/-- The sequence of `(bytes_read, to_read)` pairs for which
`read_chunked_response` forms the slice
`response_buffer[bytes_read..bytes_read + to_read]`, mirroring the loop of
`readChunkedAux` step for step. -/
def chunkSlicesAux (chunkSize : Nat) :
    List ReadStep → List Nat → Nat → Nat → List (Nat × Nat)
  | _, _, _, 0 => []
  | [], _, bytesRead, remaining => [(bytesRead, min remaining chunkSize)]
  | .ioErr :: _, _, bytesRead, remaining => [(bytesRead, min remaining chunkSize)]
  | .yield k :: rest, data, bytesRead, remaining =>
      let toRead := min remaining chunkSize
      let chunk := data.take (min toRead k)
      let n := chunk.length
      (bytesRead, toRead) ::
        (if n = 0 then []
         else if n < toRead then []
         else chunkSlicesAux chunkSize rest (data.drop n) (bytesRead + n) (remaining - n))

/-- `TcpClient::read_into_fixed_buffer` (tcp_client_handle_response.rs lines
115-133): one `read` into a slice of length `expectedLen`; an I/O error
propagates; a short read is tolerated and exactly the delivered bytes are
returned. -/
def readIntoFixedBuffer (steps : List ReadStep) (data : List Nat)
    (expectedLen : Nat) : Except IggyError (List Nat) :=
  match steps with
  | [] => .error .TcpError
  | .ioErr :: _ => .error .TcpError
  | .yield k :: _ => .ok (data.take (min expectedLen k))

/-- Response size tier bounds (tcp_client_handle_response.rs lines 10-12). -/
def SMALL_RESPONSE_THRESHOLD : Nat := 4096

def MEDIUM_RESPONSE_THRESHOLD : Nat := 65536

def LARGE_RESPONSE_THRESHOLD : Nat := 1048576

/-- `TcpClient::handle_response` (tcp_client_handle_response.rs lines 25-111):
non-zero status maps through `IggyError::from_code`; `length ≤ 1` returns an
empty payload touching the stream no further; then the read strategy is
picked by size tier: one fixed-buffer read up to 4 KiB, else chunked reads
with 16 KiB / 64 KiB / 256 KiB chunks. -/
def handleResponse (status length : Nat) (steps : List ReadStep)
    (data : List Nat) : Except IggyError (List Nat) :=
  if status ≠ 0 then .error (.FromCode status)
  else if length ≤ 1 then .ok []
  else if length ≤ SMALL_RESPONSE_THRESHOLD then
    readIntoFixedBuffer steps data length
  else if length ≤ MEDIUM_RESPONSE_THRESHOLD then
    readChunkedAux 16384 steps data length []
  else if length ≤ LARGE_RESPONSE_THRESHOLD then
    readChunkedAux 65536 steps data length []
  else
    readChunkedAux 262144 steps data length []

/-- The number of post-header bytes the peer actually delivers to the
chunked reader under per-call yield sizes `ks` before the read ends: each
call requests `to_read = min remaining chunkSize` and delivers
`min to_read k` bytes capped by the `avail` bytes the peer still holds; a
zero-byte delivery (EOF) ends the read with nothing more, a short delivery
ends it with those bytes, a full delivery continues. -/
def deliveredCount (chunkSize : Nat) : List Nat → Nat → Nat → Nat
  | _, _, 0 => 0
  | [], _, _ => 0
  | k :: rest, avail, remaining =>
      let toRead := min remaining chunkSize
      let n := min (min toRead k) avail
      if n = 0 then 0
      else if n < toRead then n
      else n + deliveredCount chunkSize rest (avail - n) (remaining - n)

/-- The bytes actually delivered during `handle_response` for a status-0
response of header length `length` under yield sizes `ks`: zero on the
empty fast path, one capped read on the fixed-buffer path, and the chunked
delivery count with the tier's chunk size otherwise. -/
def deliveredBytes (length : Nat) (ks : List Nat) (data : List Nat) : Nat :=
  if length ≤ 1 then 0
  else if length ≤ SMALL_RESPONSE_THRESHOLD then
    match ks with
    | [] => 0
    | k :: _ => min (min length k) data.length
  else if length ≤ MEDIUM_RESPONSE_THRESHOLD then
    deliveredCount 16384 ks data.length length
  else if length ≤ LARGE_RESPONSE_THRESHOLD then
    deliveredCount 65536 ks data.length length
  else
    deliveredCount 262144 ks data.length length

/-- A scripted connection stream for one `send_raw` exchange: whether the
single frame write succeeds, whether the flush succeeds, and the peer's read
behavior (`steps` schedule over `data` bytes). -/
structure StreamScript where
  writeOk : Bool
  flushOk : Bool
  steps : List ReadStep
  data : List Nat
deriving DecidableEq, Repr

/-- Events observable on the connection during `send_raw`, in order. -/
inductive WireEv where
  | wrote (bs : List Nat)
  | flushed
  | readCall
deriving DecidableEq, Repr

/-- `TcpClient::send_raw` (tcp_client_send_raw.rs lines 16-157): fast-path
state checks (`is_shutdown_sync`, `is_disconnected_sync`), the `None`-stream
check, one buffered write of the whole frame, a flush (every branch of the
adaptive flush policy flushes before reading), the 8-byte header read
(I/O error → `Disconnected`, short header → `EmptyResponse`), then
`handle_response` on the decoded `status`/`length`. Returns the result
together with the trace of connection events. -/
def sendRaw (st : ClientState) (stream : Option StreamScript) (code : Nat)
    (payload : List Nat) : Except IggyError (List Nat) × List WireEv :=
  if st = .Shutdown then (.error .ClientShutdown, [])
  else if st = .Disconnected then (.error .NotConnected, [])
  else
    match stream with
    | none => (.error .NotConnected, [])
    | some s =>
      let frame := requestFrame code payload
      if s.writeOk = false then (.error .TcpError, [])
      else if s.flushOk = false then (.error .TcpError, [.wrote frame])
      else
        match s.steps with
        | [] =>
            (.error .Disconnected, [.wrote frame, .flushed, .readCall])
        | .ioErr :: _ =>
            (.error .Disconnected, [.wrote frame, .flushed, .readCall])
        | .yield k :: rest =>
            let hdr := s.data.take (min RESPONSE_INITIAL_BYTES_LENGTH k)
            if hdr.length ≠ RESPONSE_INITIAL_BYTES_LENGTH then
              (.error .EmptyResponse, [.wrote frame, .flushed, .readCall])
            else
              let status := leU32 (hdr.take 4)
              let length := leU32 (hdr.drop 4)
              (handleResponse status length rest
                 (s.data.drop RESPONSE_INITIAL_BYTES_LENGTH),
               [.wrote frame, .flushed, .readCall])

/-- The retry-class error test of `send_raw_with_response`
(tcp_client_binary_transport.rs lines 34-40): the `matches!` over
`Disconnected | EmptyResponse | Unauthenticated | StaleClient`. -/
def retryableError (e : IggyError) : Bool :=
  match e with
  | .Disconnected => true
  | .EmptyResponse => true
  | .Unauthenticated => true
  | .StaleClient => true
  | _ => false

/-- `BinaryTransport::send_raw_with_response` for `TcpClient`
(tcp_client_binary_transport.rs lines 27-60), with the outcomes of the inner
calls scripted: `first` is the first `send_raw`, then — only when the error is
retry-class and reconnection is enabled — `disconnect`, `connect`, and the
second `send_raw`. When reconnection is disabled the code returns
`Err(IggyError::Disconnected)` regardless of which retry-class error occurred. -/
def sendRawWithResponse (first : Except IggyError (List Nat))
    (reconnectEnabled : Bool)
    (disconnectRes connectRes : Except IggyError Unit)
    (second : Except IggyError (List Nat)) : Except IggyError (List Nat) :=
  match first with
  | .ok b => .ok b
  | .error e =>
    if retryableError e = false then .error e
    else if reconnectEnabled = false then .error .Disconnected
    else
      match disconnectRes with
      | .error de => .error de
      | .ok _ =>
        match connectRes with
        | .error ce => .error ce
        | .ok _ => second

/-- Diagnostic events (diagnostic.rs taxonomy used by the tcp client). -/
inductive DiagnosticEvent where
  | Connected
  | Disconnected
  | Shutdown
  | SignedIn
  | SignedOut
deriving DecidableEq, Repr

/-- The pieces of `TcpClient` state that `disconnect`/`shutdown` touch: the
lifecycle byte, whether a connection stream is installed, and the list of
published diagnostic events (appended in publish order). -/
structure ClientModel where
  state : ClientState
  streamInstalled : Bool
  events : List DiagnosticEvent
deriving DecidableEq, Repr

/-- `TcpClient::disconnect` (tcp_client_disconnect.rs lines 11-41): the fast
path returns `Ok` when the state is `Disconnected` — and only then; from any
other state (including `Shutdown`) it stores `Disconnected`, clears the
stream, and publishes the `Disconnected` event. -/
def disconnect (c : ClientModel) : ClientModel × Except IggyError Unit :=
  if c.state = .Disconnected then (c, .ok ())
  else
    ({ state := .Disconnected
       streamInstalled := false
       events := c.events ++ [.Disconnected] }, .ok ())

/-- `TcpClient::shutdown` (tcp_client_shutdown.rs lines 10-32): no-op from
`Shutdown`; otherwise takes and shuts the stream, stores `Shutdown`, and
publishes the `Shutdown` event. -/
def shutdown (c : ClientModel) : ClientModel × Except IggyError Unit :=
  if c.state = .Shutdown then (c, .ok ())
  else
    ({ state := .Shutdown
       streamInstalled := false
       events := c.events ++ [.Shutdown] }, .ok ())

/-- A TCP connection as produced by `TcpStream::connect(target)`: the address
that was dialed, the resulting local and peer addresses, and whether
`set_nodelay` was applied to it. -/
structure TcpConn where
  dialedTo : Nat
  localAddr : Nat
  peerAddr : Nat
  nodelaySet : Bool
deriving DecidableEq, Repr

/-- `TcpStream::connect` against a network model `net` mapping a dialed
address to the (local, peer) address pair of the resulting socket. -/
def tcpDial (net : Nat → Nat × Nat) (target : Nat) : TcpConn :=
  ⟨target, (net target).1, (net target).2, false⟩

/-- The TLS success path of `TcpClient::connect`
(tcp_client_connect.rs lines 102-170): dial `server_address`, record
`client_address = stream.local_addr()` and the peer address, apply NODELAY to
that stream; then — in the `tls_enabled` branch — dial a second connection
with `TcpStream::connect(client_address)` and hand that second stream to the
TLS connector. Returns (the tuned first connection, the connection the TLS
handshake is performed over). -/
def connectTlsSuccessPath (net : Nat → Nat × Nat) (serverAddress : Nat) :
    TcpConn × TcpConn :=
  let stream0 := tcpDial net serverAddress
  let clientAddress := stream0.localAddr
  let tuned : TcpConn := { stream0 with nodelaySet := true }
  let stream1 := tcpDial net clientAddress
  (tuned, stream1)

/-- Result of the `connect` retry loop, with the number of
`TcpStream::connect` invocations made. `gaveUp a published` is the
`CannotEstablishConnection` return, `published` recording whether the
give-up stored `Disconnected` and published the `Disconnected` event (the
retries-exhausted exit does; the reconnection-disabled exit does not).
`stillRunning` means the outcome script ran out with the loop still going. -/
inductive LoopResult where
  | connected (attempts : Nat)
  | gaveUp (attempts : Nat) (published : Bool)
  | stillRunning (attempts : Nat)
deriving DecidableEq, Repr

/-- The retry loop of `TcpClient::connect` (tcp_client_connect.rs lines
60-100) over a script of `TcpStream::connect` outcomes (`true` = success):
on failure, if reconnection is disabled return `CannotEstablishConnection`;
else if `max_retries` is `None` (unlimited) or `retry_count < max_retries`,
bump the count, sleep and retry; else store `Disconnected`, publish
`Disconnected`, and return `CannotEstablishConnection`. -/
def connectLoop (enabled : Bool) (maxRetries : Option Nat) :
    List Bool → Nat → Nat → LoopResult
  | [], _, attempts => .stillRunning attempts
  | ok :: rest, retryCount, attempts =>
    if ok then .connected (attempts + 1)
    else if enabled = false then .gaveUp (attempts + 1) false
    else if maxRetries.isNone || decide (retryCount < maxRetries.getD 0) then
      connectLoop enabled maxRetries rest (retryCount + 1) (attempts + 1)
    else .gaveUp (attempts + 1) true

/-- Buffer size tiers (buffer_pool.rs lines 8-10). -/
def SMALL_BUFFER_SIZE : Nat := 4 * 1024

def MEDIUM_BUFFER_SIZE : Nat := 64 * 1024

def LARGE_BUFFER_SIZE : Nat := 256 * 1024

/-- Buffer pool queue bounds (buffer_pool.rs lines 13-15). -/
def SMALL_POOL_SIZE : Nat := 1024

def MEDIUM_POOL_SIZE : Nat := 128

def LARGE_POOL_SIZE : Nat := 32

/-- A `BytesMut` as far as the pool is concerned: its capacity and length. -/
structure BufMut where
  capacity : Nat
  len : Nat
deriving DecidableEq, Repr

/-- The three `ArrayQueue<BytesMut>` pools, front of list = head of queue. -/
structure BufferPools where
  small : List BufMut
  medium : List BufMut
  large : List BufMut
deriving DecidableEq, Repr

/-- `ArrayQueue::push`: appends unless the queue already holds `bound`
elements, in which case the push fails and the element is dropped. -/
def queuePush (q : List BufMut) (bound : Nat) (b : BufMut) : List BufMut :=
  if q.length < bound then q ++ [b] else q

/-- `get_sized_buffer` (buffer_pool.rs lines 65-109): pick the smallest tier
whose capacity covers `requiredSize`; a pool hit pops the queue and clears
the buffer's length; a miss allocates `BytesMut::with_capacity(tier)`.
Sizes above the large tier allocate directly. Returns the buffer and the
updated pools. -/
def getSizedBuffer (p : BufferPools) (requiredSize : Nat) :
    BufMut × BufferPools :=
  if requiredSize ≤ SMALL_BUFFER_SIZE then
    match p.small with
    | b :: rest => (⟨b.capacity, 0⟩, { p with small := rest })
    | [] => (⟨SMALL_BUFFER_SIZE, 0⟩, p)
  else if requiredSize ≤ MEDIUM_BUFFER_SIZE then
    match p.medium with
    | b :: rest => (⟨b.capacity, 0⟩, { p with medium := rest })
    | [] => (⟨MEDIUM_BUFFER_SIZE, 0⟩, p)
  else if requiredSize ≤ LARGE_BUFFER_SIZE then
    match p.large with
    | b :: rest => (⟨b.capacity, 0⟩, { p with large := rest })
    | [] => (⟨LARGE_BUFFER_SIZE, 0⟩, p)
  else
    (⟨requiredSize, 0⟩, p)

/-- `return_buffer` (buffer_pool.rs lines 113-124): push back onto the tier
whose capacity equals the buffer's capacity exactly (a failed push on a full
queue silently drops); every other capacity is dropped. -/
def returnBuffer (p : BufferPools) (b : BufMut) : BufferPools :=
  if b.capacity = SMALL_BUFFER_SIZE then
    { p with small := queuePush p.small SMALL_POOL_SIZE b }
  else if b.capacity = MEDIUM_BUFFER_SIZE then
    { p with medium := queuePush p.medium MEDIUM_POOL_SIZE b }
  else if b.capacity = LARGE_BUFFER_SIZE then
    { p with large := queuePush p.large LARGE_POOL_SIZE b }
  else p

/-- The tier capacity `get_sized_buffer` selects for a size within the
pooled range. -/
def tierCap (size : Nat) : Nat :=
  if size ≤ SMALL_BUFFER_SIZE then SMALL_BUFFER_SIZE
  else if size ≤ MEDIUM_BUFFER_SIZE then MEDIUM_BUFFER_SIZE
  else LARGE_BUFFER_SIZE

/-- The queue of the pool keyed by tier capacity (small on any non-tier key,
which the statements never use). -/
def getTier (p : BufferPools) (t : Nat) : List BufMut :=
  if t = MEDIUM_BUFFER_SIZE then p.medium
  else if t = LARGE_BUFFER_SIZE then p.large
  else p.small

/-- Replace the queue of the pool keyed by tier capacity. -/
def setTier (p : BufferPools) (t : Nat) (q : List BufMut) : BufferPools :=
  if t = MEDIUM_BUFFER_SIZE then { p with medium := q }
  else if t = LARGE_BUFFER_SIZE then { p with large := q }
  else { p with small := q }

/-- The queue bound of the tier keyed by its capacity. -/
def poolBound (t : Nat) : Nat :=
  if t = MEDIUM_BUFFER_SIZE then MEDIUM_POOL_SIZE
  else if t = LARGE_BUFFER_SIZE then LARGE_POOL_SIZE
  else SMALL_POOL_SIZE

/-- C9: the client-state byte codec is total and round-trips — encoding any
of the six `ClientState` values to u8 and decoding it back yields the same
state (Shutdown=0, Disconnected=1, Connecting=2, Connected=3,
Authenticating=4, Authenticated=5), and decoding any byte greater than 5
yields `Disconnected` rather than failing. -/
theorem client_state_codec_roundtrip :
    (∀ s : ClientState, ClientState.fromU8 s.toU8 = s) ∧
    (∀ b : Nat, 5 < b → ClientState.fromU8 b = .Disconnected) := by
  constructor
  · intro s; cases s <;> rfl
  · intro b hb
    obtain ⟨k, rfl⟩ : ∃ k, b = k + 6 := ⟨b - 6, by omega⟩
    rfl

/-- Witness for C9 at the concrete inputs `Authenticated` and byte 9. -/
theorem client_state_codec_roundtrip_witness :
    ClientState.fromU8 (ClientState.toU8 .Authenticated) = .Authenticated ∧
    ClientState.fromU8 9 = .Disconnected :=
  ⟨client_state_codec_roundtrip.1 .Authenticated,
   client_state_codec_roundtrip.2 9 (by decide)⟩

/-- C3 counterexample: with reconnection disabled, an inner `send_raw`
failure of `EmptyResponse` is surfaced as `Disconnected`, not as the original
`EmptyResponse` — refuting the claim that the same original error is
returned unchanged. -/
theorem send_raw_with_response_disabled_counterexample :
    sendRawWithResponse (.error .EmptyResponse) false (.ok ()) (.ok ())
        (.ok []) = .error .Disconnected ∧
    IggyError.Disconnected ≠ IggyError.EmptyResponse := by
  exact ⟨rfl, by decide⟩

/-- C3 amended: when the inner `send_raw` fails with one of Disconnected,
EmptyResponse, Unauthenticated, or StaleClient and reconnection is disabled,
`send_raw_with_response` returns `IggyError::Disconnected` (regardless of
which of the four occurred); errors outside that set are always propagated
as-is, with no reconnect attempt (the result does not depend on the
disconnect/connect/retry outcomes). -/
theorem send_raw_with_response_error_propagation :
    (∀ (e : IggyError) (d c : Except IggyError Unit)
        (s : Except IggyError (List Nat)),
       retryableError e = true →
       sendRawWithResponse (.error e) false d c s = .error .Disconnected) ∧
    (∀ (e : IggyError) (enabled : Bool) (d c : Except IggyError Unit)
        (s : Except IggyError (List Nat)),
       retryableError e = false →
       sendRawWithResponse (.error e) enabled d c s = .error e) := by
  constructor
  · intro e d c s he
    simp [sendRawWithResponse, he]
  · intro e enabled d c s he
    simp [sendRawWithResponse, he]

/-- Witness for C3's amended theorem at `StaleClient` (retry-class, disabled)
and `ClientShutdown` (outside the retry class, reconnection enabled). -/
theorem send_raw_with_response_error_propagation_witness :
    sendRawWithResponse (.error .StaleClient) false (.ok ()) (.ok ())
        (.ok []) = .error .Disconnected ∧
    sendRawWithResponse (.error .ClientShutdown) true (.ok ()) (.ok ())
        (.ok []) = .error .ClientShutdown :=
  ⟨send_raw_with_response_error_propagation.1 .StaleClient (.ok ()) (.ok ())
      (.ok []) (by decide),
   send_raw_with_response_error_propagation.2 .ClientShutdown true (.ok ())
      (.ok ()) (.ok []) (by decide)⟩

/-- C4 (code bug): `disconnect` called on a client in `Shutdown` state is
not a no-op — the fast path only checks for `Disconnected`, so the call
moves the state byte back to `Disconnected`, clears the connection stream,
and publishes a `Disconnected` diagnostic event, contradicting the claim
that `Shutdown` is terminal. -/
theorem disconnect_from_shutdown_divergence :
    (disconnect ⟨.Shutdown, true, []⟩).2 = .ok () ∧
    (disconnect ⟨.Shutdown, true, []⟩).1 =
      ⟨.Disconnected, false, [.Disconnected]⟩ := by
  exact ⟨rfl, rfl⟩

/-- C5 (code bug): on the TLS success path of `connect`, the TLS handshake
is not performed over the connection that was dialed to the server endpoint,
tuned with NODELAY and whose addresses were recorded — the code opens a
second TCP connection with `TcpStream::connect(client_address)`, i.e. dialed
to the client's own local address, and hands that one to the TLS connector.
Shown on a network model where dialing address `a` yields local address
`a + 1000`. -/
theorem connect_tls_dials_wrong_endpoint :
    ((connectTlsSuccessPath (fun a => (a + 1000, a)) 5).2).dialedTo = 1005 ∧
    ((connectTlsSuccessPath (fun a => (a + 1000, a)) 5).2).dialedTo ≠ 5 ∧
    (connectTlsSuccessPath (fun a => (a + 1000, a)) 5).2 ≠
      (connectTlsSuccessPath (fun a => (a + 1000, a)) 5).1 := by
  refine ⟨rfl, by decide, by decide⟩

/-- Helper: with reconnection enabled and `max_retries = some N`, any
give-up of the retry loop happens within `a0 + (N - r0) + 1` attempts and
has published the `Disconnected` event. -/
theorem connectLoop_gaveUp_bound (N : Nat) :
    ∀ (outcomes : List Bool) (r0 a0 att : Nat) (pub : Bool),
      connectLoop true (some N) outcomes r0 a0 = .gaveUp att pub →
      att ≤ a0 + (N - r0) + 1 ∧ pub = true := by
  intro outcomes
  induction outcomes with
  | nil =>
    intro r0 a0 att pub h
    simp [connectLoop] at h
  | cons ok rest ih =>
    intro r0 a0 att pub h
    by_cases hok : ok = true
    · simp [connectLoop, hok] at h
    · rw [Bool.not_eq_true] at hok
      subst hok
      by_cases hr : r0 < N
      · simp [connectLoop, hr] at h
        have := ih (r0 + 1) (a0 + 1) att pub h
        exact ⟨by omega, this.2⟩
      · simp [connectLoop, hr] at h
        exact ⟨by omega, h.2⟩

/-- Helper: with reconnection enabled and `max_retries = none`, a script of
nothing but failures never makes the loop return — it is still running after
consuming the whole script, one attempt per entry. -/
theorem connectLoop_unlimited_running :
    ∀ (outcomes : List Bool) (r0 a0 : Nat),
      (∀ x ∈ outcomes, x = false) →
      connectLoop true none outcomes r0 a0 =
        .stillRunning (a0 + outcomes.length) := by
  intro outcomes
  induction outcomes with
  | nil => intro r0 a0 _; simp [connectLoop]
  | cons ok rest ih =>
    intro r0 a0 hall
    have hok : ok = false := hall ok (by simp)
    subst hok
    have hrest : ∀ x ∈ rest, x = false := fun x hx => hall x (by simp [hx])
    simp [connectLoop, ih (r0 + 1) (a0 + 1) hrest]
    omega

/-- C7: with reconnection enabled and `max_retries = some N`, the retry loop
makes at most `N + 1` `TcpStream::connect` invocations before returning
`CannotEstablishConnection`, and that give-up stores `Disconnected` and
publishes the `Disconnected` event; with `max_retries = none` and every
attempt failing the loop never returns; with reconnection disabled a single
failed attempt returns `CannotEstablishConnection` immediately (no state
change, no event). -/
theorem connect_retry_bound :
    (∀ (N : Nat) (outcomes : List Bool) (att : Nat) (pub : Bool),
       connectLoop true (some N) outcomes 0 0 = .gaveUp att pub →
       att ≤ N + 1 ∧ pub = true) ∧
    (∀ outcomes : List Bool, (∀ x ∈ outcomes, x = false) →
       connectLoop true none outcomes 0 0 = .stillRunning outcomes.length) ∧
    (∀ (m : Option Nat) (rest : List Bool),
       connectLoop false m (false :: rest) 0 0 = .gaveUp 1 false) := by
  refine ⟨?_, ?_, ?_⟩
  · intro N outcomes att pub h
    have := connectLoop_gaveUp_bound N outcomes 0 0 att pub h
    exact ⟨by omega, this.2⟩
  · intro outcomes hall
    have := connectLoop_unlimited_running outcomes 0 0 hall
    simpa using this
  · intro m rest
    simp [connectLoop]

/-- Witness for C7 at `N = 1` with three straight failures (gives up after
exactly 2 attempts), a two-failure unlimited script, and a one-failure
disabled run. -/
theorem connect_retry_bound_witness :
    ((2 : Nat) ≤ 1 + 1 ∧ true = true) ∧
    connectLoop true none [false, false] 0 0 = .stillRunning 2 ∧
    connectLoop false none [false] 0 0 = .gaveUp 1 false :=
  ⟨connect_retry_bound.1 1 [false, false, false] 2 true (by decide),
   connect_retry_bound.2.1 [false, false] (by decide),
   connect_retry_bound.2.2 none []⟩

/-- C8: for every size ≤ 256 KiB, `get_sized_buffer` selects the smallest
tier (4 KiB, 64 KiB, 256 KiB) whose capacity is ≥ size — returning the
pooled buffer with length reset to 0 on a hit and a fresh buffer of the tier
capacity on a miss; `return_buffer` pushes a buffer back onto a tier queue
iff its capacity equals that tier's capacity exactly (all other capacities
are dropped with every queue unchanged), and a push onto a full queue
silently drops the buffer. -/
theorem buffer_pool_acquire_release :
    (∀ size : Nat, size ≤ LARGE_BUFFER_SIZE →
       size ≤ tierCap size ∧
       ∀ t : Nat,
         (t = SMALL_BUFFER_SIZE ∨ t = MEDIUM_BUFFER_SIZE ∨
            t = LARGE_BUFFER_SIZE) →
         size ≤ t → tierCap size ≤ t) ∧
    (∀ (p : BufferPools) (size : Nat), size ≤ LARGE_BUFFER_SIZE →
       (∀ b rest, getTier p (tierCap size) = b :: rest →
          getSizedBuffer p size =
            (⟨b.capacity, 0⟩, setTier p (tierCap size) rest)) ∧
       (getTier p (tierCap size) = [] →
          getSizedBuffer p size = (⟨tierCap size, 0⟩, p))) ∧
    (∀ (p : BufferPools) (b : BufMut) (t : Nat),
       (t = SMALL_BUFFER_SIZE ∨ t = MEDIUM_BUFFER_SIZE ∨
          t = LARGE_BUFFER_SIZE) →
       b.capacity = t →
       getTier (returnBuffer p b) t =
         (if (getTier p t).length < poolBound t then getTier p t ++ [b]
          else getTier p t) ∧
       ∀ t' : Nat,
         (t' = SMALL_BUFFER_SIZE ∨ t' = MEDIUM_BUFFER_SIZE ∨
            t' = LARGE_BUFFER_SIZE) →
         t' ≠ t → getTier (returnBuffer p b) t' = getTier p t') ∧
    (∀ (p : BufferPools) (b : BufMut),
       b.capacity ≠ SMALL_BUFFER_SIZE → b.capacity ≠ MEDIUM_BUFFER_SIZE →
       b.capacity ≠ LARGE_BUFFER_SIZE → returnBuffer p b = p) := by
  refine ⟨?_, ?_, ?_, ?_⟩
  · intro size hsize
    simp only [tierCap, SMALL_BUFFER_SIZE, MEDIUM_BUFFER_SIZE,
      LARGE_BUFFER_SIZE] at *
    constructor
    · split_ifs <;> omega
    · intro t ht hle
      rcases ht with rfl | rfl | rfl <;> split_ifs <;> omega
  · intro p size hsize
    have hsize' : size ≤ 262144 := by simpa [LARGE_BUFFER_SIZE] using hsize
    by_cases h1 : size ≤ 4096
    · constructor
      · intro b rest hq
        have hq' : p.small = b :: rest := by
          simpa [getTier, tierCap, SMALL_BUFFER_SIZE, MEDIUM_BUFFER_SIZE,
            LARGE_BUFFER_SIZE, h1] using hq
        simp [getSizedBuffer, setTier, tierCap, SMALL_BUFFER_SIZE,
          MEDIUM_BUFFER_SIZE, LARGE_BUFFER_SIZE, h1, hq']
      · intro hq
        have hq' : p.small = [] := by
          simpa [getTier, tierCap, SMALL_BUFFER_SIZE, MEDIUM_BUFFER_SIZE,
            LARGE_BUFFER_SIZE, h1] using hq
        simp [getSizedBuffer, tierCap, SMALL_BUFFER_SIZE,
          MEDIUM_BUFFER_SIZE, LARGE_BUFFER_SIZE, h1, hq']
    · by_cases h2 : size ≤ 65536
      · constructor
        · intro b rest hq
          have hq' : p.medium = b :: rest := by
            simpa [getTier, tierCap, SMALL_BUFFER_SIZE, MEDIUM_BUFFER_SIZE,
              LARGE_BUFFER_SIZE, h1, h2] using hq
          simp [getSizedBuffer, setTier, tierCap, SMALL_BUFFER_SIZE,
            MEDIUM_BUFFER_SIZE, LARGE_BUFFER_SIZE, h1, h2, hq']
        · intro hq
          have hq' : p.medium = [] := by
            simpa [getTier, tierCap, SMALL_BUFFER_SIZE, MEDIUM_BUFFER_SIZE,
              LARGE_BUFFER_SIZE, h1, h2] using hq
          simp [getSizedBuffer, tierCap, SMALL_BUFFER_SIZE,
            MEDIUM_BUFFER_SIZE, LARGE_BUFFER_SIZE, h1, h2, hq']
      · constructor
        · intro b rest hq
          have hq' : p.large = b :: rest := by
            simpa [getTier, tierCap, SMALL_BUFFER_SIZE, MEDIUM_BUFFER_SIZE,
              LARGE_BUFFER_SIZE, h1, h2] using hq
          simp [getSizedBuffer, setTier, tierCap, SMALL_BUFFER_SIZE,
            MEDIUM_BUFFER_SIZE, LARGE_BUFFER_SIZE, h1, h2, hsize', hq']
        · intro hq
          have hq' : p.large = [] := by
            simpa [getTier, tierCap, SMALL_BUFFER_SIZE, MEDIUM_BUFFER_SIZE,
              LARGE_BUFFER_SIZE, h1, h2] using hq
          simp [getSizedBuffer, tierCap, SMALL_BUFFER_SIZE,
            MEDIUM_BUFFER_SIZE, LARGE_BUFFER_SIZE, h1, h2, hsize', hq']
  · intro p b t ht hcap
    rcases ht with rfl | rfl | rfl <;>
      constructor <;>
      [skip; (intro t' ht' hne; rcases ht' with rfl | rfl | rfl);
       skip; (intro t' ht' hne; rcases ht' with rfl | rfl | rfl);
       skip; (intro t' ht' hne; rcases ht' with rfl | rfl | rfl)] <;>
      simp_all [returnBuffer, getTier, queuePush, poolBound,
        SMALL_BUFFER_SIZE, MEDIUM_BUFFER_SIZE, LARGE_BUFFER_SIZE,
        SMALL_POOL_SIZE, MEDIUM_POOL_SIZE, LARGE_POOL_SIZE]
  · intro p b hs hm hl
    simp [returnBuffer, hs, hm, hl]

/-- Witness for C8: tier selection at size 5000, a pool hit at size 100, a
release of an exactly-64-KiB buffer, and a release of an odd-sized buffer. -/
theorem buffer_pool_acquire_release_witness :
    ((5000 : Nat) ≤ tierCap 5000 ∧ tierCap 5000 ≤ 65536) ∧
    getSizedBuffer ⟨[⟨4096, 7⟩], [], []⟩ 100 =
      (⟨4096, 0⟩, setTier ⟨[⟨4096, 7⟩], [], []⟩ (tierCap 100) []) ∧
    getTier (returnBuffer ⟨[], [], []⟩ ⟨65536, 0⟩) 65536 =
      (if (getTier (⟨[], [], []⟩ : BufferPools) 65536).length <
          poolBound 65536
       then getTier (⟨[], [], []⟩ : BufferPools) 65536 ++ [⟨65536, 0⟩]
       else getTier (⟨[], [], []⟩ : BufferPools) 65536) ∧
    returnBuffer ⟨[], [], []⟩ ⟨5, 0⟩ = (⟨[], [], []⟩ : BufferPools) :=
  ⟨⟨(buffer_pool_acquire_release.1 5000 (by decide)).1,
    (buffer_pool_acquire_release.1 5000 (by decide)).2 65536 (by decide)
      (by decide)⟩,
   (buffer_pool_acquire_release.2.1 ⟨[⟨4096, 7⟩], [], []⟩ 100
      (by decide)).1 ⟨4096, 7⟩ [] (by decide),
   (buffer_pool_acquire_release.2.2.1 ⟨[], [], []⟩ ⟨65536, 0⟩ 65536
      (by decide) (by decide)).1,
   buffer_pool_acquire_release.2.2.2 ⟨[], [], []⟩ ⟨5, 0⟩ (by decide)
      (by decide) (by decide)⟩

/-- Helper: taking `m` elements of a list is the same as taking the length
of that take — the canonical prefix form used for delivered chunks. -/
theorem take_eq_take_length {α : Type} (l : List α) (m : Nat) :
    l.take m = l.take ((l.take m).length) := by
  rcases Nat.le_total m l.length with h | h
  · rw [List.length_take, Nat.min_eq_left h]
  · rw [List.take_of_length_le h]
    simp

/-- Helper: every successful result of the chunked reader extends the bytes
already landed (`acc`) by a prefix of the remaining peer data, of length at
most `remaining` — covering both the complete read and every truncated
success (short read, EOF, or I/O error after partial data). -/
theorem readChunkedAux_ok_shape (chunkSize : Nat) :
    ∀ (steps : List ReadStep) (data : List Nat) (remaining : Nat)
      (acc out : List Nat),
      readChunkedAux chunkSize steps data remaining acc = .ok out →
      ∃ d : List Nat, out = acc ++ d ∧ d = data.take d.length ∧
        d.length ≤ remaining := by
  intro steps
  induction steps with
  | nil =>
    intro data remaining acc out h
    cases remaining with
    | zero =>
      simp [readChunkedAux] at h
      exact ⟨[], by simp [h], by simp, by simp⟩
    | succ r =>
      simp only [readChunkedAux] at h
      split at h
      · simp at h
        exact ⟨[], by simp [h], by simp, by simp⟩
      · simp at h
  | cons s rest ih =>
    intro data remaining acc out h
    cases remaining with
    | zero =>
      simp [readChunkedAux] at h
      exact ⟨[], by simp [h], by simp, by simp⟩
    | succ r =>
      cases s with
      | ioErr =>
        simp only [readChunkedAux] at h
        split at h
        · simp at h
          exact ⟨[], by simp [h], by simp, by simp⟩
        · simp at h
      | yield k =>
        simp only [readChunkedAux] at h
        split at h
        · simp at h
          exact ⟨[], by simp [h], by simp, by simp⟩
        · split at h
          · injection h with h
            refine ⟨data.take (min (min (r + 1) chunkSize) k), h.symm,
              take_eq_take_length data _, ?_⟩
            have := List.length_take_le (min (min (r + 1) chunkSize) k) data
            omega
          · obtain ⟨d', hout, hpre, hlen⟩ := ih _ _ _ _ h
            refine ⟨data.take (min (min (r + 1) chunkSize) k) ++ d',
              by simpa [List.append_assoc] using hout, ?_, ?_⟩
            · have hchunk :
                  data.take (min (min (r + 1) chunkSize) k) =
                    data.take
                      ((data.take (min (min (r + 1) chunkSize) k)).length) :=
                take_eq_take_length data _
              rw [List.length_append]
              rw [List.take_add]
              nth_rewrite 1 [hchunk]
              rw [← hpre]
            · have h1 := List.length_take_le (min (min (r + 1) chunkSize) k)
                data
              have h2 : min (min (r + 1) chunkSize) k ≤ r + 1 := by omega
              rw [List.length_append]
              omega

/-- Helper: the chunked delivery count never exceeds the bytes remaining. -/
theorem deliveredCount_le (chunkSize : Nat) :
    ∀ (ks : List Nat) (avail remaining : Nat),
      deliveredCount chunkSize ks avail remaining ≤ remaining := by
  intro ks
  induction ks with
  | nil =>
    intro avail remaining
    cases remaining <;> simp [deliveredCount]
  | cons k rest ih =>
    intro avail remaining
    cases remaining with
    | zero => simp [deliveredCount]
    | succ r =>
      simp only [deliveredCount]
      have h1 : min (min (min (r + 1) chunkSize) k) avail ≤
          min (min (r + 1) chunkSize) k := Nat.min_le_left _ _
      have h2 : min (min (r + 1) chunkSize) k ≤ min (r + 1) chunkSize :=
        Nat.min_le_left _ _
      have h3 : min (r + 1) chunkSize ≤ r + 1 := Nat.min_le_left _ _
      have h4 := ih (avail - min (min (min (r + 1) chunkSize) k) avail)
        (r + 1 - min (min (min (r + 1) chunkSize) k) avail)
      split
      · omega
      · split
        · omega
        · omega

/-- Helper: over a yield-only schedule (no I/O errors) that is long enough
for the byte count (`remaining ≤ ks.length` suffices, since every continued
call lands at least one byte), the chunked reader always succeeds — short
deliveries and zero-byte EOF included — returning the bytes already landed
extended by exactly the delivered prefix of the peer data. -/
theorem readChunkedAux_yield_run (chunkSize : Nat) :
    ∀ (ks : List Nat) (data : List Nat) (remaining : Nat) (acc : List Nat),
      remaining ≤ ks.length →
      readChunkedAux chunkSize (ks.map ReadStep.yield) data remaining acc =
        .ok (acc ++ data.take
          (deliveredCount chunkSize ks data.length remaining)) := by
  intro ks
  induction ks with
  | nil =>
    intro data remaining acc hlen
    have : remaining = 0 := by simpa using hlen
    subst this
    simp [readChunkedAux, deliveredCount]
  | cons k rest ih =>
    intro data remaining acc hlen
    cases remaining with
    | zero => simp [readChunkedAux, deliveredCount]
    | succ r =>
      simp only [List.map_cons, readChunkedAux, deliveredCount]
      rw [List.length_take]
      by_cases hz : min (min (min (r + 1) chunkSize) k) data.length = 0
      · simp only [if_pos hz]
        simp
      · simp only [if_neg hz]
        by_cases hlt : min (min (min (r + 1) chunkSize) k) data.length <
            min (r + 1) chunkSize
        · simp only [if_pos hlt]
          have ht := take_eq_take_length data (min (min (r + 1) chunkSize) k)
          rw [List.length_take] at ht
          rw [ht]
        · simp only [if_neg hlt]
          have hn1 : 1 ≤ min (min (min (r + 1) chunkSize) k) data.length :=
            Nat.one_le_iff_ne_zero.mpr hz
          simp only [List.length_cons] at hlen
          have hrec := ih
            (data.drop (min (min (min (r + 1) chunkSize) k) data.length))
            (r + 1 - min (min (min (r + 1) chunkSize) k) data.length)
            (acc ++ data.take (min (min (r + 1) chunkSize) k))
            (by omega)
          rw [hrec, List.length_drop, List.append_assoc, List.take_add]
          have ht := take_eq_take_length data (min (min (r + 1) chunkSize) k)
          rw [List.length_take] at ht
          rw [ht]

/-- C2: for every response with status 0 and header length `L`: if `L ≤ 1`
the call returns an empty payload without reading any further bytes (the
result does not depend on the stream); every successful result is a prefix
of the bytes that followed the header, of length at most `L`; and over any
yield-only schedule long enough for `L` reads — short yields and zero-byte
EOF yields included — the call succeeds and returns exactly the
`min(L, bytes_actually_delivered)` bytes that followed the header, the
truncated payload being a success, not an error. -/
theorem handle_response_payload :
    (∀ (L : Nat) (steps : List ReadStep) (data : List Nat), L ≤ 1 →
       handleResponse 0 L steps data = .ok []) ∧
    (∀ (L : Nat) (steps : List ReadStep) (data out : List Nat),
       handleResponse 0 L steps data = .ok out →
       out.length ≤ L ∧ out = data.take out.length) ∧
    (∀ (L : Nat) (ks : List Nat) (data : List Nat), 1 < L →
       L ≤ ks.length →
       handleResponse 0 L (ks.map ReadStep.yield) data =
         .ok (data.take (min L (deliveredBytes L ks data)))) := by
  refine ⟨?_, ?_, ?_⟩
  · intro L steps data hL
    simp [handleResponse, hL]
  · intro L steps data out h
    simp only [handleResponse] at h
    rw [if_neg (by simp)] at h
    by_cases h1 : L ≤ 1
    · rw [if_pos h1] at h
      injection h with h
      subst h
      simp
    · rw [if_neg h1] at h
      by_cases h2 : L ≤ SMALL_RESPONSE_THRESHOLD
      · rw [if_pos h2] at h
        cases steps with
        | nil => simp [readIntoFixedBuffer] at h
        | cons s rest =>
          cases s with
          | ioErr => simp [readIntoFixedBuffer] at h
          | yield k =>
            simp only [readIntoFixedBuffer] at h
            injection h with h
            subst h
            constructor
            · have := List.length_take_le (min L k) data
              have : min L k ≤ L := Nat.min_le_left _ _
              have := List.length_take (min L k) data
              omega
            · exact take_eq_take_length data _
      · rw [if_neg h2] at h
        by_cases h3 : L ≤ MEDIUM_RESPONSE_THRESHOLD
        · rw [if_pos h3] at h
          obtain ⟨d, hout, hpre, hlen⟩ :=
            readChunkedAux_ok_shape 16384 steps data L [] out h
          simp only [List.nil_append] at hout
          subst hout
          exact ⟨hlen, hpre⟩
        · rw [if_neg h3] at h
          by_cases h4 : L ≤ LARGE_RESPONSE_THRESHOLD
          · rw [if_pos h4] at h
            obtain ⟨d, hout, hpre, hlen⟩ :=
              readChunkedAux_ok_shape 65536 steps data L [] out h
            simp only [List.nil_append] at hout
            subst hout
            exact ⟨hlen, hpre⟩
          · rw [if_neg h4] at h
            obtain ⟨d, hout, hpre, hlen⟩ :=
              readChunkedAux_ok_shape 262144 steps data L [] out h
            simp only [List.nil_append] at hout
            subst hout
            exact ⟨hlen, hpre⟩
  · intro L ks data hL hlen
    have h1 : ¬ L ≤ 1 := by omega
    by_cases h2 : L ≤ SMALL_RESPONSE_THRESHOLD
    · obtain ⟨k, rest, rfl⟩ : ∃ k rest, ks = k :: rest := by
        cases ks with
        | nil => simp at hlen; omega
        | cons k rest => exact ⟨k, rest, rfl⟩
      have e1 : handleResponse 0 L ((k :: rest).map ReadStep.yield) data =
          .ok (data.take (min L k)) := by
        simp [handleResponse, h1, h2, readIntoFixedBuffer]
      have e2 : deliveredBytes L (k :: rest) data =
          min (min L k) data.length := by
        simp [deliveredBytes, h1, h2]
      rw [e1, e2]
      have hD : min (min L k) data.length ≤ L := by
        have ha := Nat.min_le_left (min L k) data.length
        have hb := Nat.min_le_left L k
        omega
      rw [Nat.min_eq_right hD]
      have ht := take_eq_take_length data (min L k)
      rw [List.length_take] at ht
      rw [ht]
    · by_cases h3 : L ≤ MEDIUM_RESPONSE_THRESHOLD
      · have e1 : handleResponse 0 L (ks.map ReadStep.yield) data =
            readChunkedAux 16384 (ks.map ReadStep.yield) data L [] := by
          simp [handleResponse, h1, h2, h3]
        have e2 : deliveredBytes L ks data =
            deliveredCount 16384 ks data.length L := by
          simp [deliveredBytes, h1, h2, h3]
        rw [e1, e2, readChunkedAux_yield_run 16384 ks data L [] hlen,
          Nat.min_eq_right (deliveredCount_le 16384 ks data.length L)]
        simp
      · by_cases h4 : L ≤ LARGE_RESPONSE_THRESHOLD
        · have e1 : handleResponse 0 L (ks.map ReadStep.yield) data =
              readChunkedAux 65536 (ks.map ReadStep.yield) data L [] := by
            simp [handleResponse, h1, h2, h3, h4]
          have e2 : deliveredBytes L ks data =
              deliveredCount 65536 ks data.length L := by
            simp [deliveredBytes, h1, h2, h3, h4]
          rw [e1, e2, readChunkedAux_yield_run 65536 ks data L [] hlen,
            Nat.min_eq_right (deliveredCount_le 65536 ks data.length L)]
          simp
        · have e1 : handleResponse 0 L (ks.map ReadStep.yield) data =
              readChunkedAux 262144 (ks.map ReadStep.yield) data L [] := by
            simp [handleResponse, h1, h2, h3, h4]
          have e2 : deliveredBytes L ks data =
              deliveredCount 262144 ks data.length L := by
            simp [deliveredBytes, h1, h2, h3, h4]
          rw [e1, e2, readChunkedAux_yield_run 262144 ks data L [] hlen,
            Nat.min_eq_right (deliveredCount_le 262144 ks data.length L)]
          simp

/-- Witness for C2 at `L = 1` (empty fast path), a success at `L = 2` over
a stream that yields 7 bytes of a 3-byte peer, and a genuine short read at
`L = 2` with two 1-byte yields over a 3-byte peer: the call succeeds with
the 1-byte truncated payload, `min(2, delivered) = 1`. -/
theorem handle_response_payload_witness :
    handleResponse 0 1 [] [1, 2, 3] = .ok [] ∧
    (([4, 5] : List Nat).length ≤ 2 ∧
       ([4, 5] : List Nat) = [4, 5, 6].take ([4, 5] : List Nat).length) ∧
    handleResponse 0 2 ([1, 1].map ReadStep.yield) [4, 5, 6] =
      .ok ([4, 5, 6].take (min 2 (deliveredBytes 2 [1, 1] [4, 5, 6]))) :=
  ⟨handle_response_payload.1 1 [] [1, 2, 3] (by decide),
   handle_response_payload.2.1 2 [.yield 7] [4, 5, 6] [4, 5] rfl,
   handle_response_payload.2.2 2 [1, 1] [4, 5, 6] (by decide) (by decide)⟩

/-- Helper: every `(bytes_read, to_read)` slice request of the chunked
reader stays within the `totalLen`-byte buffer, given the loop invariant
`bytes_read + remaining = totalLen`. -/
theorem chunkSlicesAux_bound (chunkSize : Nat) :
    ∀ (steps : List ReadStep) (data : List Nat)
      (bytesRead remaining totalLen : Nat),
      bytesRead + remaining = totalLen →
      ∀ p ∈ chunkSlicesAux chunkSize steps data bytesRead remaining,
        p.1 + p.2 ≤ totalLen := by
  intro steps
  induction steps with
  | nil =>
    intro data bytesRead remaining totalLen hsum p hp
    cases remaining with
    | zero => simp [chunkSlicesAux] at hp
    | succ r =>
      simp [chunkSlicesAux] at hp
      have : min (r + 1) chunkSize ≤ r + 1 := Nat.min_le_left _ _
      subst hp
      simp
      omega
  | cons s rest ih =>
    intro data bytesRead remaining totalLen hsum p hp
    cases remaining with
    | zero => simp [chunkSlicesAux] at hp
    | succ r =>
      cases s with
      | ioErr =>
        simp [chunkSlicesAux] at hp
        have : min (r + 1) chunkSize ≤ r + 1 := Nat.min_le_left _ _
        subst hp
        simp
        omega
      | yield k =>
        simp only [chunkSlicesAux] at hp
        rcases List.mem_cons.mp hp with rfl | hp'
        · have : min (r + 1) chunkSize ≤ r + 1 := Nat.min_le_left _ _
          simp
          omega
        · split at hp'
          · simp at hp'
          · split at hp'
            · simp at hp'
            · have hn :
                  (data.take (min (min (r + 1) chunkSize) k)).length ≤
                    r + 1 := by
                have h1 := List.length_take_le
                  (min (min (r + 1) chunkSize) k) data
                have h2 : min (min (r + 1) chunkSize) k ≤ r + 1 := by
                  have := Nat.min_le_left (min (r + 1) chunkSize) k
                  have := Nat.min_le_left (r + 1) chunkSize
                  omega
                omega
              exact ih _ _ _ totalLen (by omega) p hp'

/-- C10: for every `total_len` and positive `chunk_size`, with reads never
delivering more than the requested slice length (built into the read
model), every slice `response_buffer[bytes_read .. bytes_read + to_read]`
the chunked reader indexes lies within the `total_len`-byte buffer it
preallocated, and the payload it returns — on success or after a mid-read
I/O error with partial data — has length at most `total_len`. -/
theorem read_chunked_in_bounds :
    ∀ (totalLen chunkSize : Nat) (steps : List ReadStep) (data : List Nat),
      0 < chunkSize →
      (∀ p ∈ chunkSlicesAux chunkSize steps data 0 totalLen,
         p.1 + p.2 ≤ totalLen) ∧
      (∀ out, readChunkedAux chunkSize steps data totalLen [] = .ok out →
         out.length ≤ totalLen) := by
  intro totalLen chunkSize steps data _
  constructor
  · exact chunkSlicesAux_bound chunkSize steps data 0 totalLen totalLen
      (by omega)
  · intro out h
    obtain ⟨d, hout, _, hlen⟩ :=
      readChunkedAux_ok_shape chunkSize steps data totalLen [] out h
    simp only [List.nil_append] at hout
    subst hout
    exact hlen

/-- Witness for C10 at `total_len = 5`, `chunk_size = 2`, three 2-byte
yields over a 5-byte peer. -/
theorem read_chunked_in_bounds_witness :
    ((0 : Nat) + 2 ≤ 5) ∧
    (([1, 2, 3, 4, 5] : List Nat).length ≤ 5) :=
  ⟨(read_chunked_in_bounds 5 2 [.yield 2, .yield 2, .yield 2]
      [1, 2, 3, 4, 5] (by decide)).1 (0, 2) (by decide),
   (read_chunked_in_bounds 5 2 [.yield 2, .yield 2, .yield 2]
      [1, 2, 3, 4, 5] (by decide)).2 [1, 2, 3, 4, 5] rfl⟩

/-- C1: every `send_raw` run that reaches the response-read phase has put
exactly one frame on the wire — the little-endian u32 of
`payload_length + 4`, then the little-endian u32 of `code`, then the payload
bytes — as a single write, flushed before the response header read. -/
theorem send_raw_wire_format :
    ∀ (st : ClientState) (stream : Option StreamScript) (code : Nat)
      (payload : List Nat),
      WireEv.readCall ∈ (sendRaw st stream code payload).2 →
      (sendRaw st stream code payload).2 =
        [.wrote (u32le (payload.length + 4) ++ u32le code ++ payload),
         .flushed, .readCall] := by
  intro st stream code payload h
  by_cases h1 : st = ClientState.Shutdown
  · simp [sendRaw, h1] at h
  by_cases h2 : st = ClientState.Disconnected
  · simp [sendRaw, h1, h2] at h
  cases stream with
  | none => simp [sendRaw, h1, h2] at h
  | some s =>
    obtain ⟨w, f, steps, data⟩ := s
    cases w with
    | false => simp [sendRaw, h1, h2] at h
    | true =>
      cases f with
      | false => simp [sendRaw, h1, h2] at h
      | true =>
        cases steps with
        | nil =>
          simp [sendRaw, h1, h2, requestFrame,
            REQUEST_INITIAL_BYTES_LENGTH]
        | cons s0 rest =>
          cases s0 with
          | ioErr =>
            simp [sendRaw, h1, h2, requestFrame,
              REQUEST_INITIAL_BYTES_LENGTH]
          | yield k =>
            simp [sendRaw, h1, h2, requestFrame,
              REQUEST_INITIAL_BYTES_LENGTH]
            split <;> rfl

/-- Witness for C1: a connected client, a stream delivering an 8-byte
all-zero header, `code = 42`, `payload = [7, 7]`. -/
theorem send_raw_wire_format_witness :
    WireEv.readCall ∈ (sendRaw .Connected
        (some ⟨true, true, [.yield 8], [0, 0, 0, 0, 0, 0, 0, 0]⟩)
        42 [7, 7]).2 ∧
    (sendRaw .Connected
        (some ⟨true, true, [.yield 8], [0, 0, 0, 0, 0, 0, 0, 0]⟩)
        42 [7, 7]).2 =
      [.wrote (u32le (([7, 7] : List Nat).length + 4) ++ u32le 42 ++ [7, 7]),
       .flushed, .readCall] :=
  ⟨by decide,
   send_raw_wire_format .Connected
     (some ⟨true, true, [.yield 8], [0, 0, 0, 0, 0, 0, 0, 0]⟩) 42 [7, 7]
     (by decide)⟩

/-- C6 counterexample: in state `Connecting` with a connection stream still
installed, `send_raw` does not return `NotConnected` before writing — the
fast path checks only `Shutdown` and `Disconnected`, so the call writes the
request frame to the stream (and here completes with an empty payload). -/
theorem send_raw_connecting_counterexample :
    (sendRaw .Connecting
        (some ⟨true, true, [.yield 8], [0, 0, 0, 0, 0, 0, 0, 0]⟩)
        1 []).1 = .ok [] ∧
    (sendRaw .Connecting
        (some ⟨true, true, [.yield 8], [0, 0, 0, 0, 0, 0, 0, 0]⟩)
        1 []).2 =
      [.wrote (requestFrame 1 []), .flushed, .readCall] ∧
    (sendRaw .Connecting
        (some ⟨true, true, [.yield 8], [0, 0, 0, 0, 0, 0, 0, 0]⟩)
        1 []).2 ≠ [] :=
  ⟨rfl, rfl, by decide⟩

/-- C6 amended: `send_raw` in state `Shutdown` returns `ClientShutdown` and
in state `Disconnected` returns `NotConnected`, both via the fast path with
nothing written; in state `Connecting` it returns `NotConnected` before any
bytes are written provided no connection stream is installed (the situation
during connection establishment) — the fast path itself does not check
`Connecting`, so the error comes from the `None`-stream check. -/
theorem send_raw_fast_path_state_errors :
    ∀ (stream : Option StreamScript) (code : Nat) (payload : List Nat),
      sendRaw .Shutdown stream code payload =
        (.error .ClientShutdown, []) ∧
      sendRaw .Disconnected stream code payload =
        (.error .NotConnected, []) ∧
      sendRaw .Connecting none code payload =
        (.error .NotConnected, []) := by
  intro stream code payload
  exact ⟨rfl, rfl, rfl⟩

end IggySdk
